import Mathlib

/-!
Shallow embedding of the `ai-trading-agent` repository
(`src/daily_analysis.py` and `src/api_server.py`) for checking its
natural-language specification.

Modelling conventions:
* Python `None` / caught exceptions become `Option`.
* JSON values are the inductive `JsonVal`; numbers are exact decimals
  `mantissa * 10 ^ exponent` (an idealisation of Python floats that is exact
  on every decimal literal the pipeline handles).
* `json.loads` is modelled by `parseJson`, a strict-JSON recursive-descent
  reader (objects, arrays, strings with escapes, numbers, true/false/null,
  whole-input consumption), matching the strict mode of Python's parser on
  the JSON grammar.
* The regex `\x7b[^\x7b\x7d]*(?:\x7b[^\x7b\x7d]*\x7d[^\x7b\x7d]*)*\x7d` used
  by `analyze_with_claude` is modelled by `jsonSearch` (leftmost match of a
  brace-delimited region with at most one nesting level).
* External collaborators (news API, model API, datastore, clock) are oracles
  supplied as explicit arguments, per the spec's component boundaries.
-/

/-- The opening-brace character, written via its code point. -/
def lbrace : Char := Char.ofNat 123

/-- The closing-brace character, written via its code point. -/
def rbrace : Char := Char.ofNat 125

/-- Whitespace characters stripped by Python's `str.strip` (ASCII subset). -/
def isPyWs (c : Char) : Bool :=
  c = ' ' || c = '\t' || c = '\n' || c = '\r' || c = '\x0b' || c = '\x0c'

/-- Model of Python `str.strip()`. -/
def pyStripStr (s : String) : String :=
  ⟨(((s.data.dropWhile isPyWs).reverse.dropWhile isPyWs).reverse)⟩

/-- Model of Python `str.upper()` (ASCII). -/
def pyUpperStr (s : String) : String :=
  ⟨s.data.map Char.toUpper⟩

/-- Model of Python `str.split(sep)` for a one-character separator:
splits at every occurrence, keeping empty segments (so `"".split(",") = [""]`). -/
def pySplitChars (sep : Char) : List Char → List Char → List String
  | [], acc => [⟨acc.reverse⟩]
  | c :: cs, acc =>
    if c = sep then ⟨acc.reverse⟩ :: pySplitChars sep cs []
    else pySplitChars sep cs (c :: acc)

/-- Model of Python `str.split(sep)`. -/
def pySplit (s : String) (sep : Char) : List String :=
  pySplitChars sep s.data []

/-- JSON values as produced by `json.loads`.  Numbers are exact decimals
`mantissa * 10 ^ exponent`. -/
inductive JsonVal where
  | null : JsonVal
  | bool (b : Bool) : JsonVal
  | num (mantissa : Int) (exponent : Int) : JsonVal
  | str (s : String) : JsonVal
  | arr (elems : List JsonVal) : JsonVal
  | obj (fields : List (String × JsonVal)) : JsonVal

/-- Dictionary lookup `d[k]` / `d.get(k)` on a parsed JSON object: the last
binding wins, as in Python's dict built by `json.loads`; `none` on a missing
key or a non-dict value (where Python raises `KeyError` / `TypeError`). -/
def jsonGet (j : JsonVal) (k : String) : Option JsonVal :=
  match j with
  | .obj fields => fields.foldl (fun acc kv => if kv.1 = k then some kv.2 else acc) none
  | _ => none

/-- `k in d` for a parsed JSON dict (false on non-dicts, which is only used
where the code guards dict access). -/
def jsonHasKey (j : JsonVal) (k : String) : Bool :=
  (jsonGet j k).isSome

/-- Python truthiness of a parsed JSON value (`if prediction:`). -/
def pyTruthy : JsonVal → Bool
  | .null => false
  | .bool b => b
  | .num m _ => m ≠ 0
  | .str s => s ≠ ""
  | .arr xs => !xs.isEmpty
  | .obj fs => !fs.isEmpty

/-- JSON-grammar whitespace (the four characters skipped by `json.loads`). -/
def isJsonWs (c : Char) : Bool :=
  c = ' ' || c = '\t' || c = '\n' || c = '\r'

/-- Skip JSON whitespace. -/
def skipWs (s : List Char) : List Char :=
  s.dropWhile isJsonWs

/-- Decimal digits to a natural number. -/
def digitsToNat (ds : List Char) : Nat :=
  ds.foldl (fun a c => a * 10 + (c.toNat - 48)) 0

/-- Hexadecimal digit test. -/
def isHexDig (c : Char) : Bool :=
  c.isDigit || ('a' ≤ c && c ≤ 'f') || ('A' ≤ c && c ≤ 'F')

/-- Read the body of a JSON string after the opening quote; returns the
decoded characters and the remainder after the closing quote.  Rejects raw
control characters (strict mode) and surrogate `\uXXXX` escapes (not
representable; a conservative subset of Python's reader). -/
def strBody : Nat → List Char → Option (List Char × List Char)
  | 0, _ => none
  | _, [] => none
  | fuel + 1, c :: rest =>
    if c = '"' then some ([], rest)
    else if c = '\\' then
      match rest with
      | [] => none
      | e :: rest2 =>
        if e = '"' || e = '\\' || e = '/' then
          (strBody fuel rest2).map (fun p => (e :: p.1, p.2))
        else if e = 'b' then (strBody fuel rest2).map (fun p => ('\x08' :: p.1, p.2))
        else if e = 'f' then (strBody fuel rest2).map (fun p => ('\x0c' :: p.1, p.2))
        else if e = 'n' then (strBody fuel rest2).map (fun p => ('\n' :: p.1, p.2))
        else if e = 'r' then (strBody fuel rest2).map (fun p => ('\r' :: p.1, p.2))
        else if e = 't' then (strBody fuel rest2).map (fun p => ('\t' :: p.1, p.2))
        else if e = 'u' then
          match rest2 with
          | a :: b :: c2 :: d :: rest3 =>
            if isHexDig a && isHexDig b && isHexDig c2 && isHexDig d then
              let code := ((a.toNat - (if a.isDigit then 48 else if a.toNat < 97 then 55 else 87)) * 4096
                + (b.toNat - (if b.isDigit then 48 else if b.toNat < 97 then 55 else 87)) * 256
                + (c2.toNat - (if c2.isDigit then 48 else if c2.toNat < 97 then 55 else 87)) * 16
                + (d.toNat - (if d.isDigit then 48 else if d.toNat < 97 then 55 else 87)))
              if 0xd800 ≤ code && code < 0xe000 then none
              else (strBody fuel rest3).map (fun p => (Char.ofNat code :: p.1, p.2))
            else none
          | _ => none
        else none
    else if c.toNat < 32 then none
    else (strBody fuel rest).map (fun p => (c :: p.1, p.2))

/-- Parse a JSON number at the head of the input: returns
`(mantissa, exponent, rest)`. -/
def numBody (s : List Char) : Option (Int × Int × List Char) :=
  let (neg, s1) := match s with
    | c :: t => if c = '-' then (true, t) else (false, s)
    | [] => (false, s)
  let ds := s1.takeWhile Char.isDigit
  let s2 := s1.dropWhile Char.isDigit
  if ds = [] then none
  else if ds.length > 1 && ds.head? = some '0' then none
  else
    let (fds, s3) : List Char × List Char := match s2 with
      | c :: t => if c = '.' then (t.takeWhile Char.isDigit, t.dropWhile Char.isDigit) else ([], s2)
      | [] => ([], s2)
    let fracPresent : Bool := match s2 with
      | c :: _ => c = '.'
      | [] => false
    if fracPresent && fds = [] then none
    else
      let (expOk, expVal, s4) : Bool × Int × List Char := match s3 with
        | c :: t =>
          if c = 'e' || c = 'E' then
            let (esign, t1) : Bool × List Char := match t with
              | c2 :: t2 => if c2 = '-' then (true, t2) else if c2 = '+' then (false, t2) else (false, t)
              | [] => (false, t)
            let eds := t1.takeWhile Char.isDigit
            let t2 := t1.dropWhile Char.isDigit
            if eds = [] then (false, 0, s3)
            else (true, (if esign then -(digitsToNat eds : Int) else (digitsToNat eds : Int)), t2)
          else (true, 0, s3)
        | [] => (true, 0, s3)
      if !expOk then none
      else
        let mant : Nat := digitsToNat ds * 10 ^ fds.length + digitsToNat fds
        let mantissa : Int := if neg then -(mant : Int) else (mant : Int)
        some (mantissa, expVal - (fds.length : Int), s4)

mutual

/-- Parse one JSON value (after optional leading whitespace); returns the
value and the unconsumed remainder. -/
def parseVal : Nat → List Char → Option (JsonVal × List Char)
  | 0, _ => none
  | fuel + 1, s =>
    match skipWs s with
    | [] => none
    | c :: cs =>
      if c = '"' then
        (strBody (cs.length + 1) cs).map (fun p => (JsonVal.str ⟨p.1⟩, p.2))
      else if c = lbrace then
        parseObjRest fuel cs
      else if c = '[' then
        parseArrRest fuel cs
      else if c = 't' then
        match cs with
        | 'r' :: 'u' :: 'e' :: rest => some (JsonVal.bool true, rest)
        | _ => none
      else if c = 'f' then
        match cs with
        | 'a' :: 'l' :: 's' :: 'e' :: rest => some (JsonVal.bool false, rest)
        | _ => none
      else if c = 'n' then
        match cs with
        | 'u' :: 'l' :: 'l' :: rest => some (JsonVal.null, rest)
        | _ => none
      else if c = '-' || c.isDigit then
        (numBody (c :: cs)).map (fun p => (JsonVal.num p.1 p.2.1, p.2.2))
      else none

/-- Parse the inside of a JSON object, just after the opening brace. -/
def parseObjRest : Nat → List Char → Option (JsonVal × List Char)
  | 0, _ => none
  | fuel + 1, s =>
    match skipWs s with
    | [] => none
    | c :: cs =>
      if c = rbrace then some (JsonVal.obj [], cs)
      else parseMembers fuel [] (c :: cs)

/-- Parse the members of a JSON object (positioned at a key). -/
def parseMembers : Nat → List (String × JsonVal) → List Char → Option (JsonVal × List Char)
  | 0, _, _ => none
  | fuel + 1, acc, s =>
    match skipWs s with
    | [] => none
    | c :: cs =>
      if c = '"' then
        match strBody (cs.length + 1) cs with
        | none => none
        | some (key, rest) =>
          match skipWs rest with
          | ':' :: rest2 =>
            match parseVal fuel rest2 with
            | none => none
            | some (v, rest3) =>
              match skipWs rest3 with
              | ',' :: rest4 => parseMembers fuel (acc ++ [(⟨key⟩, v)]) rest4
              | d :: rest4 =>
                if d = rbrace then some (JsonVal.obj (acc ++ [(⟨key⟩, v)]), rest4) else none
              | [] => none
          | _ => none
      else none

/-- Parse the inside of a JSON array, just after the opening bracket. -/
def parseArrRest : Nat → List Char → Option (JsonVal × List Char)
  | 0, _ => none
  | fuel + 1, s =>
    match skipWs s with
    | ']' :: cs => some (JsonVal.arr [], cs)
    | _ => parseElems fuel [] s

/-- Parse the elements of a JSON array (positioned at an element). -/
def parseElems : Nat → List JsonVal → List Char → Option (JsonVal × List Char)
  | 0, _, _ => none
  | fuel + 1, acc, s =>
    match parseVal fuel s with
    | none => none
    | some (v, rest) =>
      match skipWs rest with
      | ',' :: rest2 => parseElems fuel (acc ++ [v]) rest2
      | ']' :: rest2 => some (JsonVal.arr (acc ++ [v]), rest2)
      | _ => none

end

/-- Model of `json.loads`: parse one JSON document and require that nothing
but whitespace remains. -/
def parseJson (s : List Char) : Option JsonVal :=
  match parseVal (4 * s.length + 8) s with
  | some (v, rest) => if skipWs rest = [] then some v else none
  | none => none

/-- One step of the brace regex after the opening brace: `d` is the current
nesting level (1 = inside the outer object, 2 = inside a nested one); returns
the consumed characters up to and including the brace that closes the outer
level.  A second nesting level makes the match fail, exactly as the pattern
`\x7b[^\x7b\x7d]*(?:\x7b[^\x7b\x7d]*\x7d[^\x7b\x7d]*)*\x7d` does. -/
def matchAux : List Char → Nat → Option (List Char)
  | [], _ => none
  | c :: cs, d =>
    if c = lbrace then
      if d = 1 then (matchAux cs 2).map (fun m => c :: m) else none
    else if c = rbrace then
      if d = 1 then some [c] else (matchAux cs 1).map (fun m => c :: m)
    else (matchAux cs d).map (fun m => c :: m)

/-- Whether the brace regex matches at the head of the input, and what it
matches. -/
def matchAt (s : List Char) : Option (List Char) :=
  match s with
  | c :: cs => if c = lbrace then (matchAux cs 1).map (fun m => c :: m) else none
  | [] => none

/-- Model of `re.search` with the brace pattern: the match at the leftmost
position where one exists. -/
def jsonSearch : List Char → Option (List Char)
  | [] => none
  | c :: cs =>
    match matchAt (c :: cs) with
    | some m => some m
    | none => jsonSearch cs

/-- `analyze_with_claude`, parse stage (`src/daily_analysis.py` lines
109-145).  The argument is the model API outcome: `none` when the request
raised (network error, timeout, non-2xx status, malformed response body);
`some text` is the response text.  The function returns the parsed
prediction, or `none` when no brace candidate is found, the candidate is not
valid JSON, or the success log line `prediction['signal']` /
`prediction['confidence']` raises `KeyError` — every exception is caught by
the surrounding `except` and turned into `None`. -/
def analyze_with_claude (resp : Option String) : Option JsonVal :=
  match resp with
  | none => none
  | some text =>
    match jsonSearch text.data with
    | none => none
    | some m =>
      match parseJson m with
      | none => none
      | some prediction =>
        if jsonHasKey prediction "signal" && jsonHasKey prediction "confidence" then
          some prediction
        else none

/-- Model of Python `float(x)` on a string argument (common decimal forms;
`inf`/`nan`/underscored literals are outside the modelled subset). -/
def pyFloatOfString (s : String) : Option (Int × Int) :=
  let l := (pyStripStr s).data
  let (neg, l1) : Bool × List Char := match l with
    | c :: t => if c = '-' then (true, t) else if c = '+' then (false, t) else (false, l)
    | [] => (false, l)
  let ds := l1.takeWhile Char.isDigit
  let l2 := l1.dropWhile Char.isDigit
  let (fds, l3) : List Char × List Char := match l2 with
    | c :: t => if c = '.' then (t.takeWhile Char.isDigit, t.dropWhile Char.isDigit) else ([], l2)
    | [] => ([], l2)
  if ds.isEmpty && fds.isEmpty then none
  else
    let cont : Option (Int × List Char) := match l3 with
      | c :: t =>
        if c = 'e' || c = 'E' then
          let (esign, t1) : Bool × List Char := match t with
            | c2 :: t2 => if c2 = '-' then (true, t2) else if c2 = '+' then (false, t2) else (false, t)
            | [] => (false, t)
          let eds := t1.takeWhile Char.isDigit
          let t2 := t1.dropWhile Char.isDigit
          if eds.isEmpty then none
          else some ((if esign then -(digitsToNat eds : Int) else (digitsToNat eds : Int)), t2)
        else none
      | [] => some (0, l3)
    match cont with
    | none => none
    | some (e, l4) =>
      if l4.isEmpty then
        let mant : Nat := digitsToNat ds * 10 ^ fds.length + digitsToNat fds
        some ((if neg then -(mant : Int) else (mant : Int)), e - (fds.length : Int))
      else none

/-- Model of Python `float(x)`: `none` where Python raises `TypeError` /
`ValueError`. -/
def pyFloat : JsonVal → Option (Int × Int)
  | .num m e => some (m, e)
  | .bool b => some ((if b then 1 else 0), 0)
  | .str s => pyFloatOfString s
  | _ => none

/-- One article as normalised by `fetch_news` (`src/daily_analysis.py`
lines 45-53).  Field values come from `item.get(...)` and may be any JSON
value; the sentiment has been coerced with `float`. -/
structure Article where
  title : JsonVal
  summary : JsonVal
  source : JsonVal
  sentiment : Int × Int
  time : JsonVal

/-- Outcome of the outbound news request: `fail` covers a raised request
exception, the 10-second timeout, and a non-JSON body; `ok data` is the
decoded JSON body. -/
inductive FetchOutcome where
  | fail : FetchOutcome
  | ok (data : JsonVal) : FetchOutcome

/-- Whether `needle` occurs as a contiguous substring of `hay`. -/
def strContains (hay needle : List Char) : Bool :=
  match hay with
  | [] => needle.isEmpty
  | _ :: t => needle.isPrefixOf hay || strContains t needle

/-- Python `k in data` on a decoded JSON value: key test on dicts, membership
on lists, substring test on strings, `TypeError` (`none`) otherwise. -/
def pyContains (j : JsonVal) (k : String) : Option Bool :=
  match j with
  | .obj _ => some (jsonHasKey j k)
  | .arr xs => some (xs.any (fun x => match x with | .str s => s = k | _ => false))
  | .str s => some (strContains s.data k.data)
  | _ => none

/-- Build one article record from a feed item (`none` where the loop body
would raise: non-dict item, or `float` failing on the sentiment score). -/
def mkArticle (item : JsonVal) : Option Article :=
  match item with
  | .obj _ =>
    match pyFloat ((jsonGet item "overall_sentiment_score").getD (.num 0 0)) with
    | some sent =>
      some { title := (jsonGet item "title").getD (.str ""),
             summary := (jsonGet item "summary").getD (.str ""),
             source := (jsonGet item "source").getD (.str ""),
             sentiment := sent,
             time := (jsonGet item "time_published").getD (.str "") }
    | none => none
  | _ => none

/-- Build the article list; a failure anywhere discards everything, since the
exception escapes the whole loop into the `except` handler. -/
def mkArticles : List JsonVal → Option (List Article)
  | [] => some []
  | it :: rest =>
    match mkArticle it with
    | none => none
    | some a => (mkArticles rest).map (fun l => a :: l)

/-- `fetch_news` (`src/daily_analysis.py` lines 24-60): every raised
exception is caught and turned into `[]`; a response without a `feed` field
returns `[]`; otherwise the first 10 feed items are normalised. -/
def fetch_news (outcome : FetchOutcome) : List Article :=
  match outcome with
  | .fail => []
  | .ok data =>
    match pyContains data "feed" with
    | none => []
    | some false => []
    | some true =>
      match data with
      | .obj _ =>
        match (jsonGet data "feed").getD (.arr []) with
        | .arr items =>
          match mkArticles (items.take 10) with
          | some arts => arts
          | none => []
        | _ => []
      | _ => []

/-- A persisted prediction row (table `predictions`).  `created_at` is the
ISO timestamp string assigned at storage time; `confidence` is the stored
float (exact-decimal model). -/
structure Row where
  ticker : String
  signal : JsonVal
  confidence : Int × Int
  reasoning : JsonVal
  key_factors : JsonVal
  risks : JsonVal
  created_at : String

/-- `order("created_at", desc=True)`: row `a` may precede row `b` when `b`'s
timestamp is at most `a`'s. -/
def laterFirst (a b : Row) : Prop :=
  b.created_at ≤ a.created_at

instance : DecidableRel laterFirst :=
  fun a b => inferInstanceAs (Decidable (b.created_at ≤ a.created_at))

instance : IsTotal Row laterFirst :=
  ⟨fun a b => le_total b.created_at a.created_at⟩

instance : IsTrans Row laterFirst :=
  ⟨fun _ _ _ h1 h2 => le_trans h2 h1⟩

/-- The datastore query chain `select * / eq("ticker", t) / order(created_at
desc) / limit(n)`, modelled over a list-of-rows table. -/
def supaLatestDesc (db : List Row) (t : String) (lim : Nat) : List Row :=
  ((db.filter (fun r => r.ticker = t)).insertionSort laterFirst).take lim

/-- `get_historical_predictions` (`src/daily_analysis.py` lines 147-160):
any query failure is caught and yields `[]`. -/
def get_historical_predictions (queryOk : Bool) (db : List Row) (ticker : String)
    (limit : Nat) : List Row :=
  if queryOk then supaLatestDesc db ticker limit else []

/-- A single-quote character, for Python `repr` of strings. -/
def pySq : String := String.singleton (Char.ofNat 39)

/-- Fixed-point decimal rendering of an exact-decimal float, used where an
f-string interpolates a float (idealised: Python prints the shortest
round-trip form of the binary double; the exact-decimal model prints the
exact decimal). -/
def pyStrFloat : Int × Int → String
  | (m, e) =>
    if 0 ≤ e then toString (m * (10 : Int) ^ e.toNat) ++ ".0"
    else
      let k := (-e).toNat
      let n := m.natAbs
      let fracStr : List Char := Nat.toDigits 10 (n % 10 ^ k)
      (if m < 0 then "-" else "") ++ toString (n / 10 ^ k) ++ "." ++
        String.mk (List.replicate (k - fracStr.length) '0') ++ String.mk fracStr

/-- Python `repr` of a decoded JSON value (single-quoted strings,
bracketed containers). -/
def pyRepr : JsonVal → String
  | .null => "None"
  | .bool b => if b then "True" else "False"
  | .num m e => if e = 0 then toString m else pyStrFloat (m, e)
  | .str s => pySq ++ s ++ pySq
  | .arr xs => "[" ++ String.intercalate ", " (xs.attach.map (fun x => pyRepr x.1)) ++ "]"
  | .obj fs => "\x7b" ++ String.intercalate ", "
      (fs.attach.map (fun kv => pySq ++ kv.1.1 ++ pySq ++ ": " ++ pyRepr kv.1.2)) ++ "\x7d"
decreasing_by
  · obtain ⟨x, hx⟩ := x
    have h := List.sizeOf_lt_of_mem hx
    simp only [JsonVal.arr.sizeOf_spec] at *
    omega
  · obtain ⟨⟨a, b⟩, hkv⟩ := kv
    have h := List.sizeOf_lt_of_mem hkv
    simp only [JsonVal.obj.sizeOf_spec, Prod.mk.sizeOf_spec] at *
    omega

/-- Python `str` of a decoded JSON value (as interpolated by an f-string). -/
def pyStr (j : JsonVal) : String :=
  match j with
  | .str s => s
  | other => pyRepr other

/-- Integer division rounding to nearest, ties to even (the rounding of
`format(x, ".2f")` on exact values). -/
def roundHalfEven (a : Int) (b : Nat) : Int :=
  let q := Int.fdiv a b
  let r := a - q * b
  if 2 * r < b then q else if (b : Int) < 2 * r then q + 1
  else if q % 2 = 0 then q else q + 1

/-- The f-string format spec `:.2f` on an exact-decimal float. -/
def formatF2 : Int × Int → String
  | (m, e) =>
    let n : Int := if 0 ≤ e + 2 then m * 10 ^ (e + 2).toNat
      else roundHalfEven m (10 ^ (-(e + 2)).toNat)
    (if n < 0 then "-" else "") ++ toString (n.natAbs / 100) ++ "." ++
      (if n.natAbs % 100 < 10 then "0" else "") ++ toString (n.natAbs % 100)

/-- One line of the news section of the prompt (`src/daily_analysis.py`
lines 67-70). -/
def renderArticle (n : Article) : String :=
  "- " ++ pyStr n.title ++ " (sentiment: " ++ formatF2 n.sentiment ++
    ", source: " ++ pyStr n.source ++ ")"

/-- String/list truncation `x[:n]` as applied to a stored field. -/
def pySlice (v : JsonVal) (n : Nat) : JsonVal :=
  match v with
  | .str s => .str ⟨s.data.take n⟩
  | .arr xs => .arr (xs.take n)
  | other => other

/-- One line of the previous-predictions section of the prompt
(`src/daily_analysis.py` lines 77-81). -/
def renderHist (h : Row) : String :=
  "- " ++ String.mk (h.created_at.data.take 10) ++ ": " ++ pyStr h.signal ++
    " (confidence: " ++ pyStrFloat h.confidence ++ ") - " ++
    pyStr (pySlice h.reasoning 80) ++ "..."

/-- Prompt text between the ticker and the news section. -/
def promptPart1 : String :=
  " for a trading decision.\n\nRECENT NEWS (Last 24-48 hours):\n"

/-- Prompt text between the news section and the previous-predictions
section. -/
def promptPart2 : String := "\n\nPREVIOUS PREDICTIONS:\n"

/-- Prompt text after the previous-predictions section, including the exact
JSON-format instruction. -/
def promptPart3 : String :=
  "\n\nBased on this information, provide a trading recommendation.\n\nConsider:\n1. News sentiment and credibility\n2. Historical patterns (if available)\n3. Potential risks and opportunities\n4. Market context\n\nRespond in this EXACT JSON format (no extra text):\n\x7b\n  \"signal\": \"BUY\" or \"SELL\" or \"HOLD\",\n  \"confidence\": 0.75,\n  \"reasoning\": \"Clear 2-3 sentence explanation of why this signal\",\n  \"key_factors\": [\"factor1\", \"factor2\", \"factor3\"],\n  \"risks\": [\"risk1\", \"risk2\"],\n  \"timeframe\": \"short-term (1-5 days)\"\n\x7d"

/-- The prompt composer (`src/daily_analysis.py` lines 66-107): the f-string
template with the two literal fallback phrases for empty inputs. -/
def build_prompt (ticker : String) (news : List Article) (historical : List Row) : String :=
  let news_text0 := String.intercalate "\n" (news.map renderArticle)
  let news_text := if news_text0 = "" then "No recent news available" else news_text0
  let historical_text :=
    if historical.isEmpty then "No historical predictions yet"
    else String.intercalate "\n" (historical.map renderHist)
  "Analyze " ++ ticker ++ promptPart1 ++ news_text ++ promptPart2 ++
    historical_text ++ promptPart3

/-- The row dict built by `store_prediction` before the insert
(`src/daily_analysis.py` lines 167-175): `none` where building it raises
(missing `signal`/`confidence`/`reasoning` key, or `float` failing on the
confidence), which the `except` turns into a `None` return. -/
def mkStoreRow (now : String) (ticker : String) (p : JsonVal) : Option Row :=
  match jsonGet p "signal" with
  | none => none
  | some sig =>
    match jsonGet p "confidence" with
    | none => none
    | some c =>
      match pyFloat c with
      | none => none
      | some conf =>
        match jsonGet p "reasoning" with
        | none => none
        | some reas =>
          some { ticker := ticker, signal := sig, confidence := conf, reasoning := reas,
                 key_factors := (jsonGet p "key_factors").getD (.arr []),
                 risks := (jsonGet p "risks").getD (.arr []), created_at := now }

/-- `store_prediction` (`src/daily_analysis.py` lines 162-183): returns the
insert result, or `None` when anything raised; `insertOk` is the datastore
oracle for the insert call.  The second component is the table after the
call. -/
def store_prediction (insertOk : Bool) (now : String) (ticker : String) (p : JsonVal)
    (db : List Row) : Option Row × List Row :=
  match mkStoreRow now ticker p with
  | none => (none, db)
  | some row => if insertOk then (some row, db ++ [row]) else (none, db)

/-- One entry of the run summary (`results.append(...)`,
`src/daily_analysis.py` lines 211-221).  `signal`/`confidence` model the
extra keys present only on success entries. -/
structure SummaryEntry where
  ticker : String
  status : String
  signal : Option JsonVal
  confidence : Option JsonVal

/-- The external world of one daily run: news API, history-query health,
model API (keyed by the prompt sent), insert health, clock, and the initial
table contents. -/
structure RunEnv where
  newsData : String → FetchOutcome
  histOk : String → Bool
  claudeResp : String → Option String
  storeOk : String → Bool
  now : String → String
  db0 : List Row

/-- The configured watchlist (`src/daily_analysis.py` line 13). -/
def WATCHLIST : List String := ["AAPL", "MSFT", "GOOGL", "NVDA", "TSLA"]

/-- One iteration of the loop in `main` (`src/daily_analysis.py` lines
197-221): fetch news, analyze (the prompt is composed from the news and the
queried history), then on a truthy prediction store it — discarding the
store result — and append a success entry; otherwise append a failure
entry. -/
def runStep (env : RunEnv) (db : List Row) (ticker : String) : SummaryEntry × List Row :=
  let news := fetch_news (env.newsData ticker)
  let historical := get_historical_predictions (env.histOk ticker) db ticker 5
  match analyze_with_claude (env.claudeResp (build_prompt ticker news historical)) with
  | some prediction =>
    if pyTruthy prediction then
      let r := store_prediction (env.storeOk ticker) (env.now ticker) ticker prediction db
      ({ ticker := ticker, status := "success", signal := jsonGet prediction "signal",
         confidence := jsonGet prediction "confidence" }, r.2)
    else ({ ticker := ticker, status := "failed", signal := none, confidence := none }, db)
  | none => ({ ticker := ticker, status := "failed", signal := none, confidence := none }, db)

/-- The loop body of `main`: append this ticker's summary entry and carry
the table state. -/
def runFold (env : RunEnv) (acc : List SummaryEntry × List Row) (ticker : String) :
    List SummaryEntry × List Row :=
  let r := runStep env acc.2 ticker
  (acc.1 ++ [r.1], r.2)

/-- `main` (`src/daily_analysis.py` lines 185-234): run every watchlist
ticker in order, collecting the summary and threading the table state. -/
def mainRun (env : RunEnv) : List SummaryEntry × List Row :=
  WATCHLIST.foldl (runFold env) ([], env.db0)

/-- The response dict of `GET /predict` (`src/api_server.py` lines 97-105). -/
structure PredResp where
  ticker : String
  signal : JsonVal
  confidence : Int × Int
  reasoning : JsonVal
  key_factors : JsonVal
  risks : JsonVal
  timestamp : String

/-- A raised `HTTPException`. -/
structure HTTPError where
  status : Nat
  detail : String

/-- `get_prediction` (`src/api_server.py` lines 62-113): normalise the
ticker, query the latest row; no row raises 404, a backend error (`dbErr`
oracle, keyed by the queried ticker) raises 500 with the stringified
exception in the detail. -/
def get_prediction (db : List Row) (dbErr : String → Option String) (ticker0 : String) :
    Except HTTPError PredResp :=
  let ticker := pyStripStr (pyUpperStr ticker0)
  match dbErr ticker with
  | some msg => .error { status := 500, detail := "Error retrieving prediction: " ++ msg }
  | none =>
    match supaLatestDesc db ticker 1 with
    | [] => .error { status := 404, detail := "No predictions found for " ++ ticker }
    | p :: _ =>
      .ok { ticker := ticker, signal := p.signal, confidence := p.confidence,
            reasoning := p.reasoning, key_factors := p.key_factors, risks := p.risks,
            timestamp := p.created_at }

/-- One element of the `predictions` array of `GET /batch-predict`: either a
prediction dict or the inline error dict `(ticker, error, status)` built at
`src/api_server.py` lines 139-143. -/
inductive BatchEntry where
  | pred (p : PredResp) : BatchEntry
  | err (ticker errorDetail status : String) : BatchEntry

/-- The response of `GET /batch-predict`. -/
structure BatchResp where
  predictions : List BatchEntry
  count : Nat
  timestamp : String

/-- `batch_predict` (`src/api_server.py` lines 115-149): split the query on
commas, strip-and-uppercase each segment, call `get_prediction` per ticker,
and convert every raised `HTTPException` into an inline entry with status
`"not_found"`. -/
def batch_predict (db : List Row) (dbErr : String → Option String) (now : String)
    (tickers : String) : BatchResp :=
  let ticker_list := (pySplit tickers ',').map (fun t => pyUpperStr (pyStripStr t))
  let predictions := ticker_list.map (fun ticker =>
    match get_prediction db dbErr ticker with
    | .ok p => BatchEntry.pred p
    | .error e => BatchEntry.err ticker e.detail "not_found")
  { predictions := predictions, count := predictions.length, timestamp := now }

/-- The response of `GET /history/T`. -/
structure HistoryResp where
  ticker : String
  history : List Row
  count : Nat

/-- `get_history` (`src/api_server.py` lines 151-178), success path:
normalise the ticker and return up to `min(limit, 50)` rows, newest
first. -/
def get_history (db : List Row) (ticker0 : String) (limit : Nat) : HistoryResp :=
  let ticker := pyStripStr (pyUpperStr ticker0)
  let rows := supaLatestDesc db ticker (min limit 50)
  { ticker := ticker, history := rows, count := rows.length }

/-- A successful `matchAux` consumes a prefix of the input, so appending more
text does not change the match. -/
theorem matchAux_append (ys : List Char) :
    ∀ (xs : List Char) (d : Nat) (m : List Char),
      matchAux xs d = some m → matchAux (xs ++ ys) d = some m := by
  intro xs
  induction xs with
  | nil => intro d m h; simp [matchAux] at h
  | cons c cs ih =>
    intro d m h
    simp only [List.cons_append]
    simp only [matchAux] at h ⊢
    by_cases hc : c = lbrace
    · rw [if_pos hc] at h ⊢
      by_cases hd : d = 1
      · rw [if_pos hd] at h ⊢
        rw [Option.map_eq_some'] at h
        obtain ⟨m', h1, h2⟩ := h
        rw [ih 2 m' h1]
        simpa using h2
      · rw [if_neg hd] at h
        exact absurd h (by simp)
    · by_cases hr : c = rbrace
      · rw [if_neg hc, if_pos hr] at h ⊢
        by_cases hd : d = 1
        · rw [if_pos hd] at h ⊢; exact h
        · rw [if_neg hd] at h ⊢
          rw [Option.map_eq_some'] at h
          obtain ⟨m', h1, h2⟩ := h
          rw [ih 1 m' h1]
          simpa using h2
      · rw [if_neg hc, if_neg hr] at h ⊢
        rw [Option.map_eq_some'] at h
        obtain ⟨m', h1, h2⟩ := h
        rw [ih d m' h1]
        simpa using h2

/-- The regex search skips any leading text containing no opening brace. -/
theorem jsonSearch_skip (pre : List Char) (rest : List Char)
    (hpre : ∀ c ∈ pre, c ≠ lbrace) :
    jsonSearch (pre ++ rest) = jsonSearch rest := by
  induction pre with
  | nil => simp
  | cons c cs ih =>
    have hc : c ≠ lbrace := hpre c (by simp)
    have hcs : ∀ x ∈ cs, x ≠ lbrace := fun x hx => hpre x (by simp [hx])
    simp only [List.cons_append]
    rw [jsonSearch]
    simp only [matchAt, if_neg hc]
    exact ih hcs

/-- A self-match of `matchAt` forces the opening-brace shape. -/
theorem matchAt_self (obj : List Char) (h : matchAt obj = some obj) :
    ∃ cs, obj = lbrace :: cs ∧ matchAux cs 1 = some cs := by
  match obj with
  | [] => simp [matchAt] at h
  | c :: cs =>
    simp only [matchAt] at h
    by_cases hc : c = lbrace
    · rw [if_pos hc] at h
      rw [Option.map_eq_some'] at h
      obtain ⟨m', h1, h2⟩ := h
      have hm : m' = cs := by simpa using h2
      rw [hm] at h1
      exact ⟨cs, by rw [hc], h1⟩
    · rw [if_neg hc] at h
      exact absurd h (by simp)

/-- The extraction property of the brace regex: on text of the form
`pre ++ obj ++ post` where `pre` has no opening brace and `obj` is a
balanced brace-delimited region (with at most one nesting level, i.e. a
self-match of the pattern), the search returns exactly `obj`. -/
theorem jsonSearch_extract (pre obj post : List Char)
    (hpre : ∀ c ∈ pre, c ≠ lbrace)
    (hobj : matchAt obj = some obj) :
    jsonSearch (pre ++ obj ++ post) = some obj := by
  rw [List.append_assoc, jsonSearch_skip pre (obj ++ post) hpre]
  obtain ⟨cs, rfl, haux⟩ := matchAt_self obj hobj
  simp only [List.cons_append]
  rw [jsonSearch]
  have hm : matchAt (lbrace :: (cs ++ post)) = some (lbrace :: cs) := by
    simp only [matchAt, if_pos rfl]
    rw [matchAux_append post cs 1 cs haux]
    rfl
  rw [hm]

/-- String concatenation concatenates the character data. -/
theorem strData_append (a b : String) : (a ++ b).data = a.data ++ b.data := rfl

/-- A successful analysis guarantees the two keys read by the success log
line are present. -/
theorem analyze_some_keys {resp : Option String} {p : JsonVal}
    (h : analyze_with_claude resp = some p) :
    jsonHasKey p "signal" = true ∧ jsonHasKey p "confidence" = true := by
  cases resp with
  | none => simp [analyze_with_claude] at h
  | some text =>
    cases hs : jsonSearch text.data with
    | none => simp [analyze_with_claude, hs] at h
    | some m =>
      cases hj : parseJson m with
      | none => simp [analyze_with_claude, hs, hj] at h
      | some j =>
        by_cases hk : (jsonHasKey j "signal" && jsonHasKey j "confidence") = true
        · have hpj : p = j := by
            simp [analyze_with_claude, hs, hj, hk] at h
            exact h.symm
          rw [hpj]
          exact ⟨(Bool.and_eq_true _ _).mp hk |>.1, (Bool.and_eq_true _ _).mp hk |>.2⟩
        · simp [analyze_with_claude, hs, hj, hk] at h

/-- A record with a present key is a nonempty dict, hence truthy. -/
theorem hasKey_truthy {p : JsonVal} (h : jsonHasKey p "signal" = true) :
    pyTruthy p = true := by
  cases p with
  | obj fs =>
    cases fs with
    | nil => simp [jsonHasKey, jsonGet] at h
    | cons a l => simp [pyTruthy]
  | null => simp [jsonHasKey, jsonGet] at h
  | bool b => simp [jsonHasKey, jsonGet] at h
  | num m e => simp [jsonHasKey, jsonGet] at h
  | str s => simp [jsonHasKey, jsonGet] at h
  | arr xs => simp [jsonHasKey, jsonGet] at h

/-- C1 (amended): on a response of the form `pre ++ obj ++ post` with
non-brace surrounding text and a balanced brace-delimited `obj` with at most
one nesting level, the generator extracts exactly `obj`; when `obj` parses
as JSON to a record carrying the `signal` and `confidence` keys (which the
success log line reads), the generator returns that parsed record. -/
theorem analyze_extracts_first_balanced
    (pre obj post : String) (j : JsonVal)
    (hpre : ∀ c ∈ pre.data, c ≠ lbrace ∧ c ≠ rbrace)
    (hpost : ∀ c ∈ post.data, c ≠ lbrace ∧ c ≠ rbrace)
    (hobj : matchAt obj.data = some obj.data)
    (hparse : parseJson obj.data = some j)
    (hsig : jsonHasKey j "signal" = true)
    (hconf : jsonHasKey j "confidence" = true) :
    analyze_with_claude (some (pre ++ obj ++ post)) = some j := by
  have hsearch : jsonSearch (pre.data ++ (obj.data ++ post.data)) = some obj.data := by
    rw [← List.append_assoc]
    exact jsonSearch_extract pre.data obj.data post.data (fun c hc => (hpre c hc).1) hobj
  simp [analyze_with_claude, hsearch, hparse, hsig, hconf]

/-- The embedded object of the spec's concrete extraction example. -/
def c1Obj : String := "\x7b\"signal\":\"BUY\",\"confidence\":0.8,\"reasoning\":\"x\"\x7d"

/-- The record the spec's concrete extraction example should produce. -/
def c1Record : JsonVal :=
  .obj [("signal", .str "BUY"), ("confidence", .num 8 (-1)), ("reasoning", .str "x")]

/-- C1 witness: the spec's own example input, with its surrounding garbage
text, yields exactly the example record. -/
theorem analyze_extracts_first_balanced_witness :
    analyze_with_claude (some ("garbage before " ++ c1Obj ++ " trailing text")) =
      some c1Record :=
  analyze_extracts_first_balanced "garbage before " c1Obj " trailing text" c1Record
    (by decide) (by decide) rfl rfl rfl rfl

/-- C1 counterexample: a response whose balanced embedded object parses as
JSON (to the record `a ↦ 1`), yet the generator returns no result — the
success log line raises `KeyError` on the missing `signal` key — so the
claim "returns the record obtained by parsing it as JSON" fails as stated. -/
theorem analyze_missing_keys_counterexample :
    parseJson "\x7b\"a\": 1\x7d".data = some (JsonVal.obj [("a", JsonVal.num 1 0)]) ∧
    analyze_with_claude (some "before \x7b\"a\": 1\x7d after") = none :=
  ⟨rfl, rfl⟩

/-- C2: the generator returns no result — without raising — when no brace
candidate exists or the candidate is not valid JSON, and the daily runner
then records that ticker as failed. -/
theorem analyze_none_and_ticker_failed :
    (∀ text : String, jsonSearch text.data = none →
      analyze_with_claude (some text) = none) ∧
    (∀ (text : String) (m : List Char), jsonSearch text.data = some m →
      parseJson m = none → analyze_with_claude (some text) = none) ∧
    (∀ (env : RunEnv) (db : List Row) (ticker : String),
      analyze_with_claude (env.claudeResp (build_prompt ticker
        (fetch_news (env.newsData ticker))
        (get_historical_predictions (env.histOk ticker) db ticker 5))) = none →
      (runStep env db ticker).1 =
        { ticker := ticker, status := "failed", signal := none, confidence := none }) := by
  refine ⟨?_, ?_, ?_⟩
  · intro text h
    simp [analyze_with_claude, h]
  · intro text m h1 h2
    simp [analyze_with_claude, h1, h2]
  · intro env db ticker h
    simp only [runStep, h]

/-- The run environment of a dead model API: every model call fails. -/
def envFail : RunEnv :=
  { newsData := fun _ => .fail, histOk := fun _ => true, claudeResp := fun _ => none,
    storeOk := fun _ => true, now := fun _ => "2024-01-01T00:00:00", db0 := [] }

/-- C2 witness: a braceless response, an unparsable braced response, and a
failed model call each yield no result, and the runner marks the ticker
failed. -/
theorem analyze_none_and_ticker_failed_witness :
    analyze_with_claude (some "no braces here") = none ∧
    analyze_with_claude (some "text \x7bnot json\x7d text") = none ∧
    (runStep envFail [] "AAPL").1 =
      { ticker := "AAPL", status := "failed", signal := none, confidence := none } :=
  ⟨analyze_none_and_ticker_failed.1 "no braces here" rfl,
   analyze_none_and_ticker_failed.2.1 "text \x7bnot json\x7d text"
     "\x7bnot json\x7d".data rfl rfl,
   analyze_none_and_ticker_failed.2.2 envFail [] "AAPL" rfl⟩

/-- C3 (amended): a candidate that parses as JSON is returned exactly as
parsed — no validation of the signal value, confidence bounds, or field
types — provided the `signal` and `confidence` keys are present (the
success log line reads them). -/
theorem analyze_trusts_parsed_record (text : String) (m : List Char) (j : JsonVal)
    (hsearch : jsonSearch text.data = some m)
    (hparse : parseJson m = some j)
    (hsig : jsonHasKey j "signal" = true)
    (hconf : jsonHasKey j "confidence" = true) :
    analyze_with_claude (some text) = some j := by
  simp [analyze_with_claude, hsearch, hparse, hsig, hconf]

/-- A record with an out-of-schema signal, an out-of-bounds non-numeric
confidence, and an extra field. -/
def c3Text : String := "\x7b\"signal\": 42, \"confidence\": \"very high\", \"extra\": null\x7d"

/-- The parsed form of `c3Text`. -/
def c3Record : JsonVal :=
  .obj [("signal", .num 42 0), ("confidence", .str "very high"), ("extra", .null)]

/-- C3 witness: the wildly out-of-schema record is returned untouched. -/
theorem analyze_trusts_parsed_record_witness :
    analyze_with_claude (some c3Text) = some c3Record :=
  analyze_trusts_parsed_record c3Text c3Text.data c3Record rfl rfl rfl rfl

/-- C3 counterexample: `\x7b\x7d` parses as JSON to the empty record, yet the
generator returns no result instead of that record — the `signal` key is
required in practice by the success log line — so "no requirement that any
particular key be present" fails as stated. -/
theorem analyze_empty_object_counterexample :
    parseJson "\x7b\x7d".data = some (JsonVal.obj []) ∧
    analyze_with_claude (some "\x7b\x7d") = none :=
  ⟨rfl, rfl⟩

/-- C4 (amended): when generation succeeds but the persist call fails, the
failure stays contained in `store_prediction` — the summary entry for the
ticker is still a success entry (the store result is discarded at the call
site) and nothing is added to the table. -/
theorem persist_failure_still_success (env : RunEnv) (db : List Row) (ticker : String)
    (p : JsonVal)
    (hp : analyze_with_claude (env.claudeResp (build_prompt ticker
      (fetch_news (env.newsData ticker))
      (get_historical_predictions (env.histOk ticker) db ticker 5))) = some p)
    (hstore : env.storeOk ticker = false) :
    (runStep env db ticker).1.status = "success" ∧
    (runStep env db ticker).1.ticker = ticker ∧
    (runStep env db ticker).2 = db := by
  have keys := analyze_some_keys hp
  have htruthy : pyTruthy p = true := hasKey_truthy keys.1
  simp only [runStep, hp, htruthy, if_true]
  refine ⟨by trivial, by trivial, ?_⟩
  simp only [store_prediction, hstore]
  cases mkStoreRow (env.now ticker) ticker p <;> simp

/-- A run environment where the model always answers with a good record but
every datastore insert fails. -/
def envStoreFail : RunEnv :=
  { newsData := fun _ => .fail, histOk := fun _ => true,
    claudeResp := fun _ =>
      some "\x7b\"signal\": \"BUY\", \"confidence\": 0.9, \"reasoning\": \"ok\"\x7d",
    storeOk := fun _ => false, now := fun _ => "2024-01-01T00:00:00", db0 := [] }

/-- The record parsed from `envStoreFail`'s model response. -/
def c4Record : JsonVal :=
  .obj [("signal", .str "BUY"), ("confidence", .num 9 (-1)), ("reasoning", .str "ok")]

/-- C4 counterexample: every insert fails (nothing is persisted — the final
table is empty), yet the summary records every ticker as a success entry,
not a failure entry, because `main` ignores the `store_prediction` result. -/
theorem persist_failure_counterexample :
    (mainRun envStoreFail).1.map (fun e => (e.ticker, e.status)) =
      [("AAPL", "success"), ("MSFT", "success"), ("GOOGL", "success"),
       ("NVDA", "success"), ("TSLA", "success")] ∧
    (mainRun envStoreFail).2 = [] :=
  ⟨rfl, rfl⟩

/-- C4 witness: the amended claim at the concrete failing-store
environment. -/
theorem persist_failure_still_success_witness :
    (runStep envStoreFail [] "AAPL").1.status = "success" ∧
    (runStep envStoreFail [] "AAPL").1.ticker = "AAPL" ∧
    (runStep envStoreFail [] "AAPL").2 = [] :=
  persist_failure_still_success envStoreFail [] "AAPL" c4Record rfl rfl

/-- The shape every summary entry must have: a success entry carrying signal
and confidence, or a bare failure entry. -/
def entryShape (e : SummaryEntry) : Prop :=
  (e.status = "success" ∧ e.signal.isSome = true ∧ e.confidence.isSome = true) ∨
  (e.status = "failed" ∧ e.signal = none ∧ e.confidence = none)

/-- Each loop iteration produces an entry for its own ticker, of the
required shape. -/
theorem runStep_entry (env : RunEnv) (db : List Row) (t : String) :
    (runStep env db t).1.ticker = t ∧ entryShape (runStep env db t).1 := by
  cases hp : analyze_with_claude (env.claudeResp (build_prompt t
      (fetch_news (env.newsData t))
      (get_historical_predictions (env.histOk t) db t 5))) with
  | none =>
    simp only [runStep, hp]
    exact ⟨by trivial, Or.inr ⟨by trivial, by trivial, by trivial⟩⟩
  | some p =>
    have keys := analyze_some_keys hp
    have htruthy : pyTruthy p = true := hasKey_truthy keys.1
    simp only [runStep, hp, htruthy, if_true]
    refine ⟨by trivial, Or.inl ⟨by trivial, ?_, ?_⟩⟩
    · exact keys.1
    · exact keys.2

/-- Unrolling the summary accumulation: the tickers of the produced entries
extend the accumulator by the processed list, and every produced entry is
either inherited or well-shaped. -/
theorem runFold_foldl (env : RunEnv) (l : List String) :
    ∀ acc : List SummaryEntry × List Row,
      ((l.foldl (runFold env) acc).1.map SummaryEntry.ticker =
        acc.1.map SummaryEntry.ticker ++ l) ∧
      (∀ e ∈ (l.foldl (runFold env) acc).1, e ∈ acc.1 ∨ entryShape e) := by
  induction l with
  | nil => intro acc; exact ⟨by simp, fun e he => Or.inl he⟩
  | cons t ts ih =>
    intro acc
    simp only [List.foldl_cons]
    obtain ⟨h1, h2⟩ := ih (runFold env acc t)
    constructor
    · rw [h1]
      simp [runFold, (runStep_entry env acc.2 t).1]
    · intro e he
      rcases h2 e he with h | h
      · simp only [runFold] at h
        rw [List.mem_append] at h
        rcases h with h | h
        · exact Or.inl h
        · right
          rw [List.mem_singleton] at h
          rw [h]
          exact (runStep_entry env acc.2 t).2
      · exact Or.inr h

/-- C9: the summary of a daily run has exactly one entry per watchlist
ticker, in watchlist order — so its length equals the watchlist's — and
every entry is either a success entry carrying signal and confidence or a
bare failure entry. -/
theorem mainRun_summary_shape (env : RunEnv) :
    (mainRun env).1.map SummaryEntry.ticker = WATCHLIST ∧
    (mainRun env).1.length = WATCHLIST.length ∧
    ∀ e ∈ (mainRun env).1, entryShape e := by
  obtain ⟨h1, h2⟩ := runFold_foldl env WATCHLIST ([], env.db0)
  have hmap : (mainRun env).1.map SummaryEntry.ticker = WATCHLIST := by
    simpa [mainRun] using h1
  refine ⟨hmap, ?_, ?_⟩
  · have := congrArg List.length hmap
    simpa using this
  · intro e he
    rcases h2 e (by simpa [mainRun] using he) with h | h
    · simp at h
    · exact h

/-- A failure summary entry for one ticker. -/
def failEntry (t : String) : SummaryEntry :=
  { ticker := t, status := "failed", signal := none, confidence := none }

/-- C9 witness: at the all-calls-fail environment the summary lists the five
watchlist tickers in order, and its head entry satisfies the shape. -/
theorem mainRun_summary_shape_witness :
    (mainRun envFail).1.map SummaryEntry.ticker = WATCHLIST ∧
    entryShape (failEntry "AAPL") := by
  refine ⟨(mainRun_summary_shape envFail).1,
    (mainRun_summary_shape envFail).2.2 (failEntry "AAPL") ?_⟩
  have h : (mainRun envFail).1 = [failEntry "AAPL", failEntry "MSFT", failEntry "GOOGL",
      failEntry "NVDA", failEntry "TSLA"] := rfl
  rw [h]
  exact List.mem_cons_self _ _

/-- Successful article construction preserves the item count. -/
theorem mkArticles_length : ∀ (l : List JsonVal) (r : List Article),
    mkArticles l = some r → r.length = l.length := by
  intro l
  induction l with
  | nil => intro r h; simp [mkArticles] at h; simp [h]
  | cons it rest ih =>
    intro r h
    simp only [mkArticles] at h
    cases ha : mkArticle it with
    | none => rw [ha] at h; simp at h
    | some a =>
      rw [ha] at h
      cases hr : mkArticles rest with
      | none => rw [hr] at h; simp at h
      | some r' =>
        rw [hr] at h
        simp at h
        rw [← h]
        simp [ih r' hr]

/-- C7: the news fetcher returns at most 10 articles; a failed or timed-out
call yields the empty list, as does a response without a `feed` field; and
on a well-formed feed the result is exactly the normalisation of the first
10 feed items, in feed order. -/
theorem fetch_news_spec (o : FetchOutcome) :
    (fetch_news o).length ≤ 10 ∧
    (o = .fail → fetch_news o = []) ∧
    (∀ d, o = .ok d → pyContains d "feed" ≠ some true → fetch_news o = []) ∧
    (∀ d items arts, o = .ok d → pyContains d "feed" = some true →
      jsonGet d "feed" = some (.arr items) → mkArticles (items.take 10) = some arts →
      fetch_news o = arts) := by
  refine ⟨?_, ?_, ?_, ?_⟩
  · cases o with
    | fail => simp [fetch_news]
    | ok data =>
      simp only [fetch_news]
      cases hc : pyContains data "feed" with
      | none => simp
      | some b =>
        cases b with
        | false => simp
        | true =>
          simp only
          cases data with
          | obj fs =>
            cases hf : (jsonGet (.obj fs) "feed").getD (.arr []) with
            | arr items =>
              cases hm : mkArticles (items.take 10) with
              | none => simp [hm]
              | some arts =>
                simp only [hm]
                calc arts.length = (items.take 10).length :=
                      mkArticles_length (items.take 10) arts hm
                  _ ≤ 10 := by simp [List.length_take]
            | null => simp
            | bool b2 => simp
            | num m e => simp
            | str s => simp
            | obj fs2 => simp
          | null => simp
          | bool b2 => simp
          | num m e => simp
          | str s => simp
          | arr xs => simp
  · intro h; rw [h]; rfl
  · intro d h hne
    rw [h]
    simp only [fetch_news]
    cases hc : pyContains d "feed" with
    | none => simp
    | some b =>
      cases b with
      | false => simp
      | true => exact absurd hc hne
  · intro d items arts h hfeed hget hmk
    rw [h]
    cases d with
    | obj fs =>
      simp only [fetch_news, hfeed, hget, Option.getD_some, hmk]
    | null => simp [jsonGet] at hget
    | bool b2 => simp [jsonGet] at hget
    | num m e => simp [jsonGet] at hget
    | str s => simp [jsonGet] at hget
    | arr xs => simp [jsonGet] at hget

/-- A feed response with one well-formed item. -/
def feedData : JsonVal :=
  .obj [("feed", .arr [.obj [("title", .str "T"), ("overall_sentiment_score", .num 5 (-1))]])]

/-- C7 witness: a failed call yields no articles; a keyless response yields
no articles; a one-item feed yields exactly that article. -/
theorem fetch_news_spec_witness :
    fetch_news .fail = [] ∧
    fetch_news (.ok (JsonVal.obj [])) = [] ∧
    fetch_news (.ok feedData) =
      [{ title := .str "T", summary := .str "", source := .str "",
         sentiment := (5, -1), time := .str "" }] :=
  ⟨(fetch_news_spec .fail).2.1 rfl,
   (fetch_news_spec (.ok (JsonVal.obj []))).2.2.1 (JsonVal.obj []) rfl (by decide),
   (fetch_news_spec (.ok feedData)).2.2.2 feedData
     [.obj [("title", .str "T"), ("overall_sentiment_score", .num 5 (-1))]]
     [{ title := .str "T", summary := .str "", source := .str "",
        sentiment := (5, -1), time := .str "" }] rfl rfl rfl rfl⟩

/-- With no articles and no history the template collapses to the two
fallback phrases around the fixed text. -/
theorem build_prompt_empty (t : String) :
    build_prompt t [] [] =
      "Analyze " ++ t ++ promptPart1 ++ "No recent news available" ++ promptPart2 ++
        "No historical predictions yet" ++ promptPart3 := rfl

/-- C8: with zero news articles and zero historical predictions, the
composed prompt contains the literal phrase "No recent news available" and
the literal phrase "No historical predictions yet" (shown as explicit
decompositions of its text, which pin the whole prompt's shape). -/
theorem build_prompt_fallback_phrases (t : String) :
    (∃ u v : List Char, (build_prompt t [] []).data =
      u ++ "No recent news available".data ++ v) ∧
    (∃ u v : List Char, (build_prompt t [] []).data =
      u ++ "No historical predictions yet".data ++ v) := by
  constructor
  · refine ⟨("Analyze " ++ t ++ promptPart1).data,
      (promptPart2 ++ "No historical predictions yet" ++ promptPart3).data, ?_⟩
    rw [build_prompt_empty]
    simp only [strData_append, List.append_assoc]
  · refine ⟨("Analyze " ++ t ++ promptPart1 ++ "No recent news available" ++
      promptPart2).data, promptPart3.data, ?_⟩
    rw [build_prompt_empty]
    simp only [strData_append, List.append_assoc]

/-- C6: the history endpoint returns at most `min(limit, 50)` rows, ordered
newest first (`created_at` non-increasing along the returned sequence). -/
theorem get_history_bounded_sorted (db : List Row) (t : String) (limit : Nat) :
    (get_history db t limit).history.length ≤ min limit 50 ∧
    List.Sorted laterFirst (get_history db t limit).history := by
  constructor
  · simp only [get_history, supaLatestDesc]
    simp [List.length_take]
  · have hsorted : List.Sorted laterFirst
        ((db.filter (fun r => r.ticker = pyStripStr (pyUpperStr t))).insertionSort laterFirst) :=
      List.sorted_insertionSort laterFirst _
    simp only [get_history, supaLatestDesc]
    exact List.Pairwise.sublist (List.take_sublist _ _) hsorted

/-- The `i`-th requested ticker of a batch call, after the batch loop's own
`strip` + `upper` normalisation. -/
def normSeg (tickers : String) (i : Nat) : String :=
  pyUpperStr (pyStripStr ((pySplit tickers ',').getD i ""))

/-- The ticker actually queried for the `i`-th batch entry, after
`get_prediction`'s own `upper` + `strip` normalisation is applied on top. -/
def queryTicker (tickers : String) (i : Nat) : String :=
  pyStripStr (pyUpperStr (normSeg tickers i))

/-- Shape of the `i`-th batch entry: the converted outcome of the
single-ticker lookup on the normalised `i`-th segment. -/
theorem batch_predict_getElem (db : List Row) (dbErr : String → Option String)
    (now : String) (tickers : String) (i : Nat)
    (hi : i < (pySplit tickers ',').length) :
    (batch_predict db dbErr now tickers).predictions[i]? =
      some (match get_prediction db dbErr (normSeg tickers i) with
            | .ok p => BatchEntry.pred p
            | .error e => BatchEntry.err (normSeg tickers i) e.detail "not_found") := by
  simp only [batch_predict, List.getElem?_map]
  rw [List.getElem?_eq_getElem hi]
  simp only [Option.map_some']
  rw [show (pySplit tickers ',')[i] = (pySplit tickers ',').getD i "" from
    (List.getD_eq_getElem _ _ hi).symm]
  rfl

/-- A ticker with no rows makes the single lookup raise 404. -/
theorem get_prediction_absent (db : List Row) (t0 : String)
    (h : db.filter (fun r => r.ticker = pyStripStr (pyUpperStr t0)) = []) :
    get_prediction db (fun _ => none) t0 =
      .error { status := 404,
               detail := "No predictions found for " ++ pyStripStr (pyUpperStr t0) } := by
  simp [get_prediction, supaLatestDesc, h]

/-- A ticker with at least one row makes the single lookup return a
prediction dict echoing the queried ticker. -/
theorem get_prediction_present (db : List Row) (t0 : String)
    (h : db.filter (fun r => r.ticker = pyStripStr (pyUpperStr t0)) ≠ []) :
    ∃ p, get_prediction db (fun _ => none) t0 = .ok p ∧
      p.ticker = pyStripStr (pyUpperStr t0) := by
  have hlen : 0 <
      ((db.filter (fun r => r.ticker = pyStripStr (pyUpperStr t0))).insertionSort
        laterFirst).length := by
    rw [List.length_insertionSort]
    exact List.length_pos.mpr h
  obtain ⟨a, l', hl⟩ := List.exists_cons_of_ne_nil (List.ne_nil_of_length_pos hlen)
  refine ⟨⟨pyStripStr (pyUpperStr t0), a.signal, a.confidence, a.reasoning,
    a.key_factors, a.risks, a.created_at⟩, ?_, rfl⟩
  simp [get_prediction, supaLatestDesc, hl]

/-- C5: a batch lookup over a mixed ticker list never raises: the count
equals the number of comma-separated segments of the input, each absent
ticker yields an inline error entry with status `"not_found"`, and each
present ticker yields a data entry for it. -/
theorem batch_predict_mixed (db : List Row) (now : String) (tickers : String) :
    (batch_predict db (fun _ => none) now tickers).count =
      (pySplit tickers ',').length ∧
    (batch_predict db (fun _ => none) now tickers).predictions.length =
      (pySplit tickers ',').length ∧
    ∀ i, i < (pySplit tickers ',').length →
      (db.filter (fun r => r.ticker = queryTicker tickers i) = [] →
        (batch_predict db (fun _ => none) now tickers).predictions[i]? =
          some (.err (normSeg tickers i)
            ("No predictions found for " ++ queryTicker tickers i) "not_found")) ∧
      (db.filter (fun r => r.ticker = queryTicker tickers i) ≠ [] →
        ∃ p, (batch_predict db (fun _ => none) now tickers).predictions[i]? =
          some (.pred p) ∧ p.ticker = queryTicker tickers i) := by
  refine ⟨by simp [batch_predict], by simp [batch_predict], ?_⟩
  intro i hi
  constructor
  · intro habs
    rw [batch_predict_getElem db (fun _ => none) now tickers i hi]
    rw [get_prediction_absent db (normSeg tickers i) habs]
    rfl
  · intro hpres
    obtain ⟨p, hp, hpt⟩ := get_prediction_present db (normSeg tickers i) hpres
    refine ⟨p, ?_, hpt⟩
    rw [batch_predict_getElem db (fun _ => none) now tickers i hi, hp]

/-- A one-row table holding a single AAPL prediction. -/
def dbA : List Row :=
  [{ ticker := "AAPL", signal := .str "BUY", confidence := (8, -1), reasoning := .str "r",
     key_factors := .arr [], risks := .arr [], created_at := "2024-01-01T00:00:00" }]

/-- C5 witness: over the table holding only AAPL, the batch call for
`"AAPL,MSFT"` returns two entries — a data entry for AAPL and a
`"not_found"` error entry for MSFT. -/
theorem batch_predict_mixed_witness :
    (batch_predict dbA (fun _ => none) "now" "AAPL,MSFT").count = 2 ∧
    (∃ p, (batch_predict dbA (fun _ => none) "now" "AAPL,MSFT").predictions[0]? =
      some (.pred p) ∧ p.ticker = "AAPL") ∧
    (batch_predict dbA (fun _ => none) "now" "AAPL,MSFT").predictions[1]? =
      some (.err "MSFT" "No predictions found for MSFT" "not_found") := by
  have h := batch_predict_mixed dbA "now" "AAPL,MSFT"
  refine ⟨?_, ?_, ?_⟩
  · rw [h.1]; rfl
  · have hq : queryTicker "AAPL,MSFT" 0 = "AAPL" := rfl
    have hfil : dbA.filter (fun r => r.ticker = queryTicker "AAPL,MSFT" 0) = dbA := rfl
    have hne : dbA.filter (fun r => r.ticker = queryTicker "AAPL,MSFT" 0) ≠ [] := by
      rw [hfil]; simp [dbA]
    obtain ⟨p, hp, hpt⟩ := (h.2.2 0 (by decide)).2 hne
    exact ⟨p, hp, by rw [hpt, hq]⟩
  · have hfil : dbA.filter (fun r => r.ticker = queryTicker "AAPL,MSFT" 1) = [] := rfl
    have := (h.2.2 1 (by decide)).1 hfil
    rw [this]
    rfl

/-- C10: a backend error during one batch ticker's lookup — a 500, not only
a 404 — is likewise converted into an inline entry with status
`"not_found"` (carrying the 500 detail string), and the batch still returns
one entry per requested segment. -/
theorem batch_predict_backend_error_as_not_found (db : List Row)
    (dbErr : String → Option String) (now : String) (tickers : String) (i : Nat)
    (hi : i < (pySplit tickers ',').length) (msg : String)
    (h : dbErr (queryTicker tickers i) = some msg) :
    (batch_predict db dbErr now tickers).predictions[i]? =
      some (.err (normSeg tickers i) ("Error retrieving prediction: " ++ msg)
        "not_found") ∧
    (batch_predict db dbErr now tickers).count = (pySplit tickers ',').length := by
  constructor
  · rw [batch_predict_getElem db dbErr now tickers i hi]
    simp only [queryTicker] at h
    have hg : get_prediction db dbErr (normSeg tickers i) =
        .error { status := 500, detail := "Error retrieving prediction: " ++ msg } := by
      simp [get_prediction, h]
    rw [hg]
  · simp [batch_predict]

/-- C10 witness: with a backend that always raises, the single AAPL batch
entry is the `"not_found"` error entry carrying the 500 detail. -/
theorem batch_predict_backend_error_witness :
    (batch_predict [] (fun _ => some "boom") "now" "AAPL").predictions[0]? =
      some (.err "AAPL" "Error retrieving prediction: boom" "not_found") ∧
    (batch_predict [] (fun _ => some "boom") "now" "AAPL").count = 1 :=
  batch_predict_backend_error_as_not_found [] (fun _ => some "boom") "now" "AAPL" 0
    (by decide) "boom" rfl
